import Mathlib

/-!
Verification of the mongoquery query compiler and evaluator.

The development embeds the crate's data model and algorithms:
JSON-like values, the dotted-path field resolver `extract`, the predicate
compiler `Query.from_value` / `Condition.from_map`, the synchronous
evaluator `Query.evaluate_with_ops` / `Condition.evaluate`, the async
evaluator (`AsyncQuery`), and the partial-order comparator
`value_partial_cmp`.

JSON numbers are modelled as integers: none of the properties proved here
depends on float-specific behaviour of number comparison or equality.
Hash-map registries are modelled as functions `String → Option _`
(the lookup semantics of `HashMap::get`).
-/

/-- The JSON-like value model (serde_json `Value`): a tagged union of
null, booleans, numbers, strings, arrays and objects.  Objects are
key/value entry lists (serde_json `Map` iterated in its stored order). -/
inductive Value where
  | null
  | bool (b : Bool)
  | num (n : Int)
  | str (s : String)
  | arr (elems : List Value)
  | obj (entries : List (String × Value))
deriving Repr

mutual
/-- Structural equality of values (serde_json `PartialEq for Value`). -/
def Value.beq : Value → Value → Bool
  | .null, .null => true
  | .bool a, .bool b => a == b
  | .num a, .num b => a == b
  | .str a, .str b => a == b
  | .arr a, .arr b => Value.beqList a b
  | .obj a, .obj b => Value.beqEntries a b
  | _, _ => false
termination_by a _ => sizeOf a

/-- Element-wise equality of value arrays. -/
def Value.beqList : List Value → List Value → Bool
  | [], [] => true
  | a :: ra, b :: rb => Value.beq a b && Value.beqList ra rb
  | _, _ => false
termination_by a _ => sizeOf a

/-- Entry-wise equality of object entry lists. -/
def Value.beqEntries : List (String × Value) → List (String × Value) → Bool
  | [], [] => true
  | (k1, v1) :: r1, (k2, v2) :: r2 =>
    k1 == k2 && Value.beq v1 v2 && Value.beqEntries r1 r2
  | _, _ => false
termination_by a _ => sizeOf a
end

instance : BEq Value := ⟨Value.beq⟩

/-- The error type of the crate (`QueryError`): the only variant is
`UnsupportedOperator { operator }`. -/
inductive QueryError where
  | unsupportedOperator (operator : String)
deriving DecidableEq, Repr

/-- Digits of a decimal numeral: `some n` when the character list is
non-empty and all ASCII digits, `none` otherwise. -/
def digitsVal? (cs : List Char) : Option Nat :=
  if cs.isEmpty then none
  else if cs.all Char.isDigit then
    some (cs.foldl (fun acc c => acc * 10 + (c.toNat - Char.toNat '0')) 0)
  else none

/-- Rust `i64::from_str`: an optional sign followed by one or more ASCII
digits, rejected on overflow of the two's-complement 64-bit range. -/
def i64_from_str (s : String) : Option Int :=
  match s.data with
  | '+' :: rest =>
    match digitsVal? rest with
    | some n => if (n : Int) ≤ 2 ^ 63 - 1 then some (n : Int) else none
    | none => none
  | '-' :: rest =>
    match digitsVal? rest with
    | some n => if (n : Int) ≤ 2 ^ 63 then some (-(n : Int)) else none
    | none => none
  | cs =>
    match digitsVal? cs with
    | some n => if (n : Int) ≤ 2 ^ 63 - 1 then some (n : Int) else none
    | none => none

/-- Rust `v as usize` on an `i64` value `v` (64-bit platform): the two's
complement bit pattern reinterpreted, i.e. reduction modulo `2 ^ 64`. -/
def i64_as_usize (i : Int) : Nat := (i % 2 ^ 64).toNat

/-- serde_json `Map::get`: look a key up among an object's entries. -/
def lookupField : List (String × Value) → String → Option Value
  | [], _ => none
  | (k, v) :: rest, key => if k = key then some v else lookupField rest key

theorem sizeOf_lt_of_lookupField {entries : List (String × Value)} {key : String}
    {v : Value} (h : lookupField entries key = some v) :
    sizeOf v < sizeOf entries := by
  induction entries with
  | nil => simp [lookupField] at h
  | cons e rest ih =>
    obtain ⟨k, w⟩ := e
    by_cases hk : k = key
    · simp [lookupField, hk] at h
      subst h
      simp
      omega
    · simp [lookupField, hk] at h
      have := ih h
      simp
      omega

theorem sizeOf_lt_of_get? {a : List Value} {i : Nat} {e : Value}
    (h : a.get? i = some e) : sizeOf e < sizeOf a := by
  have hmem : e ∈ a := List.get?_mem h
  exact List.sizeOf_lt_of_mem hmem

mutual
/-- `extract` on a present entry (the `Some(value)` arm of the source):
empty path returns the value; `Null` absorbs any remaining path; arrays
dispatch on whether the first segment parses as an `i64` (positional
indexing, cast to `usize`) or not (broadcast over the elements); objects
look the first segment up as a key; other scalars fail. -/
def extractSome : Value → List String → Option Value
  | v, [] => some v
  | .null, _ :: _ => some .null
  | .arr a, p :: ps =>
    match i64_from_str p with
    | some i =>
      match h : a.get? (i64_as_usize i) with
      | some e => extractSome e ps
      | none => none
    | none =>
      match extractEach a (p :: ps) with
      | some v => some (.arr v)
      | none => none
  | .obj entries, p :: ps =>
    match h : lookupField entries p with
    | some e => extractSome e ps
    | none => none
  | .bool _, _ :: _ => none
  | .num _, _ :: _ => none
  | .str _, _ :: _ => none
termination_by v _ => sizeOf v
decreasing_by
  · have := sizeOf_lt_of_get? h
    simp <;> omega
  · simp <;> omega
  · have := sizeOf_lt_of_lookupField h
    simp <;> omega

/-- The broadcast loop of `extract`'s array arm: extract the full path
from every element, failing the whole extraction on the first failure. -/
def extractEach : List Value → List String → Option (List Value)
  | [], _ => some []
  | e :: rest, path =>
    match extractSome e path with
    | none => none
    | some r =>
      match extractEach rest path with
      | none => none
      | some rs => some (r :: rs)
termination_by l _ => sizeOf l
decreasing_by
  · simp <;> omega
  · simp <;> omega
end

/-- The field path resolver `extract(entry, path)` of the source: a missing
entry never resolves; a present entry resolves through `extractSome`. -/
def extract : Option Value → List String → Option Value
  | none, _ => none
  | some v, path => extractSome v path

example : extract (some (.obj [("a", .num 3)])) ["a"] = some (.num 3) := by
  simp [extract, extractSome, lookupField]

example : extract (some (.arr [.obj [("m", .num 1)], .obj [("m", .num 2)]])) ["m"]
    = some (.arr [.num 1, .num 2]) := by
  simp [extract, extractSome, extractEach, lookupField, i64_from_str, digitsVal?]

/-- The accumulator loop of `splitDot`: splits a character list at every
dot, keeping empty pieces (as Rust `str::split('.')` does). -/
def splitDotAux : List Char → List Char → List String
  | [], acc => [String.mk acc.reverse]
  | c :: rest, acc =>
    if c = '.' then String.mk acc.reverse :: splitDotAux rest []
    else splitDotAux rest (c :: acc)

/-- Rust `field_name.split('.').collect::<Vec<_>>()`: the dotted path of a
field name, empty segments preserved. -/
def splitDot (s : String) : List String := splitDotAux s.data []

example : splitDot "size.uom" = ["size", "uom"] := by decide

/-- A standard operator (`operator.rs`): a function from the evaluatee
(possibly absent) and the raw condition value to a boolean or an error. -/
def StandardOperator : Type := Option Value → Value → Except QueryError Bool

/-- A custom operator (the single method of the `CustomOperator` trait):
the same signature as a standard operator. -/
def CustomOperator : Type := Option Value → Value → Except QueryError Bool

/-- The standard-operator registry: the lookup semantics of
`HashMap<String, StandardOperator>`. -/
def StdOpMap : Type := String → Option StandardOperator

/-- The custom-operator registry: the lookup semantics of
`HashMap<String, Box<dyn CustomOperator>>`. -/
def CustomOpMap : Type := String → Option CustomOperator

/-- The empty custom-operator registry (`HashMap::new()`). -/
def emptyCustomOps : CustomOpMap := fun _ => none

mutual
/-- The predicate tree (`Query` of `query.rs`).  The source's `_Marker`
variant carries `Infallible` and can never be constructed, so it is
omitted from the embedding. -/
inductive Query where
  | nullScalar
  | numericScalar (n : Int)
  | booleanScalar (b : Bool)
  | stringScalar (s : String)
  | sequence (seq : List Value)
  | compound (conds : List Condition)

/-- A condition node (`Condition` of `query.rs`), one per key of a query
object. -/
inductive Condition where
  | and (ops : List Query)
  | or (ops : List Query)
  | nor (ops : List Query)
  | not (op : Query)
  | field (field_name : String) (op : Query)
  | operator (operator : String) (condition : Value)
end

/-- Rust `str::strip_prefix("$")`: `some` of the remainder when the string
starts with a dollar sign, `none` otherwise. -/
def stripDollar (s : String) : Option String :=
  match s.data with
  | '$' :: rest => some (String.mk rest)
  | _ => none

mutual
/-- The predicate compiler `Query::from_value`: scalars and arrays map to
the matching scalar/sequence variant, objects map to a `Compound` of one
condition per entry. -/
def Query.from_value : Value → Query
  | .null => .nullScalar
  | .bool b => .booleanScalar b
  | .num n => .numericScalar n
  | .str s => .stringScalar s
  | .arr a => .sequence a
  | .obj o => .compound (Condition.from_map o)
termination_by v => sizeOf v

/-- `Condition::from_map`: classify each key of a query object as a
logical keyword, a `$`-prefixed operator, or a field name. -/
def Condition.from_map : List (String × Value) → List Condition
  | [] => []
  | (operator, condition) :: rest =>
    (if operator = "$and" then Condition.and (compound_condition_from_value condition)
     else if operator = "$or" then Condition.or (compound_condition_from_value condition)
     else if operator = "$nor" then Condition.nor (compound_condition_from_value condition)
     else if operator = "$not" then Condition.not (Query.from_value condition)
     else
       match stripDollar operator with
       | some stripped => Condition.operator stripped condition
       | none => Condition.field operator (Query.from_value condition))
    :: Condition.from_map rest
termination_by m => sizeOf m

/-- `compound_condition_from_value`: an array value compiles each element
as a sub-query; any non-array value degenerates to the empty list. -/
def compound_condition_from_value : Value → List Query
  | .arr vec => queries_from_values vec
  | _ => []
termination_by v => sizeOf v

/-- The `vec.iter().map(Query::from_value).collect()` loop. -/
def queries_from_values : List Value → List Query
  | [] => []
  | v :: rest => Query.from_value v :: queries_from_values rest
termination_by l => sizeOf l
end

mutual
/-- The evaluator `Query::evaluate_with_ops`: scalar nodes match on
equality or array membership, sequences on array equality or membership,
compounds as a short-circuiting conjunction of their conditions. -/
def Query.evaluate_with_ops :
    Query → Option Value → StdOpMap → CustomOpMap → Except QueryError Bool
  | .nullScalar, value, _, _ =>
    .ok (match value with
         | some .null => true
         | some (.arr v) => v.contains .null
         | _ => false)
  | .numericScalar n, value, _, _ =>
    .ok (match value with
         | some (.num input) => input == n
         | some (.arr v) => v.contains (.num n)
         | _ => false)
  | .booleanScalar b, value, _, _ =>
    .ok (match value with
         | some (.bool input) => input == b
         | some (.arr v) => v.contains (.bool b)
         | _ => false)
  | .stringScalar s, value, _, _ =>
    .ok (match value with
         | some (.str input) => input == s
         | some (.arr v) => v.contains (.str s)
         | _ => false)
  | .sequence seq, value, _, _ =>
    .ok (match value with
         | some (.arr v) => seq == v
         | some v => seq.contains v
         | none => false)
  | .compound compound, value, std_ops, custom_ops =>
    evalConditions compound value std_ops custom_ops
termination_by q _ _ _ => sizeOf q

/-- The `for cond in compound` loop of the `Compound` arm: `Ok(false)` on
the first false condition, `Ok(true)` when the list is exhausted. -/
def evalConditions :
    List Condition → Option Value → StdOpMap → CustomOpMap → Except QueryError Bool
  | [], _, _, _ => .ok true
  | cond :: rest, value, std_ops, custom_ops =>
    match Condition.evaluate cond value std_ops custom_ops with
    | .error e => .error e
    | .ok false => .ok false
    | .ok true => evalConditions rest value std_ops custom_ops
termination_by l _ _ _ => sizeOf l

/-- The evaluator `Condition::evaluate` over a single condition node. -/
def Condition.evaluate :
    Condition → Option Value → StdOpMap → CustomOpMap → Except QueryError Bool
  | .and operators, value, std_ops, custom_ops =>
    evalAnd operators value std_ops custom_ops
  | .or operators, value, std_ops, custom_ops =>
    evalOr operators value std_ops custom_ops
  | .nor operators, value, std_ops, custom_ops =>
    evalNor operators value std_ops custom_ops
  | .not op, value, std_ops, custom_ops =>
    match Query.evaluate_with_ops op value std_ops custom_ops with
    | .error e => .error e
    | .ok b => .ok (!b)
  | .field field_name op, value, std_ops, custom_ops =>
    Query.evaluate_with_ops op (extract value (splitDot field_name))
      std_ops custom_ops
  | .operator operator condition, value, std_ops, custom_ops =>
    match custom_ops operator with
    | some custom_op => custom_op value condition
    | none =>
      match std_ops operator with
      | some std_op => std_op value condition
      | none => .error (.unsupportedOperator operator)
termination_by c _ _ _ => sizeOf c

/-- The `And` loop: `Ok(false)` on the first false sub-query, `Ok(true)`
when the list is exhausted. -/
def evalAnd :
    List Query → Option Value → StdOpMap → CustomOpMap → Except QueryError Bool
  | [], _, _, _ => .ok true
  | op :: rest, value, std_ops, custom_ops =>
    match Query.evaluate_with_ops op value std_ops custom_ops with
    | .error e => .error e
    | .ok false => .ok false
    | .ok true => evalAnd rest value std_ops custom_ops
termination_by l _ _ _ => sizeOf l

/-- The `Or` loop: `Ok(true)` on the first true sub-query, `Ok(false)`
when the list is exhausted. -/
def evalOr :
    List Query → Option Value → StdOpMap → CustomOpMap → Except QueryError Bool
  | [], _, _, _ => .ok false
  | op :: rest, value, std_ops, custom_ops =>
    match Query.evaluate_with_ops op value std_ops custom_ops with
    | .error e => .error e
    | .ok true => .ok true
    | .ok false => evalOr rest value std_ops custom_ops
termination_by l _ _ _ => sizeOf l

/-- The `Nor` loop: `Ok(false)` on the first true sub-query, `Ok(true)`
when the list is exhausted. -/
def evalNor :
    List Query → Option Value → StdOpMap → CustomOpMap → Except QueryError Bool
  | [], _, _, _ => .ok true
  | op :: rest, value, std_ops, custom_ops =>
    match Query.evaluate_with_ops op value std_ops custom_ops with
    | .error e => .error e
    | .ok true => .ok false
    | .ok false => evalNor rest value std_ops custom_ops
termination_by l _ _ _ => sizeOf l
end

/-- The partial-order comparator `value_partial_cmp` of `lib.rs`, with the
source's arm order.  Numbers are modelled as integers, so the `as_f64`
conversions of the number arms are the identity and never fail. -/
def value_partial_cmp : Value → Value → Option Ordering
  | .null, .null => some .eq
  | .bool l, .bool r => some (compare l r)
  | .num l, .num r => some (compare l r)
  | .str l, .str r => some (compare l r)
  | .arr l, .arr r => some (compare l.length r.length)
  | .bool _, .num r => some (compare (1 : Int) r)
  | .num l, .bool _ => some (compare l (1 : Int))
  | _, _ => none

/-- An async custom operator (the single method of the
`AsyncCustomOperator` trait): in the pure embedding a suspension point
has no observable effect, so the signature coincides with
`CustomOperator`. -/
def AsyncCustomOperator : Type := Option Value → Value → Except QueryError Bool

/-- The async custom-operator registry
(`HashMap<String, Box<dyn AsyncCustomOperator>>`). -/
def AsyncCustomOpMap : Type := String → Option AsyncCustomOperator

/-- The empty async custom-operator registry. -/
def emptyAsyncCustomOps : AsyncCustomOpMap := fun _ => none

mutual
/-- The async predicate tree (`AsyncQuery` of `async_query.rs`); the
uninhabited `_Marker` variant is omitted as for `Query`. -/
inductive AsyncQuery where
  | nullScalar
  | numericScalar (n : Int)
  | booleanScalar (b : Bool)
  | stringScalar (s : String)
  | sequence (seq : List Value)
  | compound (conds : List AsyncCondition)

/-- A condition node of the async tree (`AsyncCondition`). -/
inductive AsyncCondition where
  | and (ops : List AsyncQuery)
  | or (ops : List AsyncQuery)
  | nor (ops : List AsyncQuery)
  | not (op : AsyncQuery)
  | field (field_name : String) (op : AsyncQuery)
  | operator (operator : String) (condition : Value)
end

mutual
/-- The async compiler `AsyncQuery::from_value`. -/
def AsyncQuery.from_value : Value → AsyncQuery
  | .null => .nullScalar
  | .bool b => .booleanScalar b
  | .num n => .numericScalar n
  | .str s => .stringScalar s
  | .arr a => .sequence a
  | .obj o => .compound (AsyncCondition.from_map o)
termination_by v => sizeOf v

/-- `AsyncCondition::from_map`, classifying keys exactly as the
synchronous `Condition::from_map` (`strip_prefix('$')` instead of
`strip_prefix("$")` in the source, with identical semantics). -/
def AsyncCondition.from_map : List (String × Value) → List AsyncCondition
  | [] => []
  | (operator, condition) :: rest =>
    (if operator = "$and" then
       AsyncCondition.and (async_compound_condition_from_value condition)
     else if operator = "$or" then
       AsyncCondition.or (async_compound_condition_from_value condition)
     else if operator = "$nor" then
       AsyncCondition.nor (async_compound_condition_from_value condition)
     else if operator = "$not" then AsyncCondition.not (AsyncQuery.from_value condition)
     else
       match stripDollar operator with
       | some stripped => AsyncCondition.operator stripped condition
       | none => AsyncCondition.field operator (AsyncQuery.from_value condition))
    :: AsyncCondition.from_map rest
termination_by m => sizeOf m

/-- The async `compound_condition_from_value`. -/
def async_compound_condition_from_value : Value → List AsyncQuery
  | .arr vec => async_queries_from_values vec
  | _ => []
termination_by v => sizeOf v

/-- The async `vec.iter().map(AsyncQuery::from_value).collect()` loop. -/
def async_queries_from_values : List Value → List AsyncQuery
  | [] => []
  | v :: rest => AsyncQuery.from_value v :: async_queries_from_values rest
termination_by l => sizeOf l
end

mutual
/-- The async evaluator `AsyncQuery::evaluate_with_ops`: each `.await`
of the source is a pure call here. -/
def AsyncQuery.evaluate_with_ops :
    AsyncQuery → Option Value → StdOpMap → AsyncCustomOpMap → Except QueryError Bool
  | .nullScalar, value, _, _ =>
    .ok (match value with
         | some .null => true
         | some (.arr v) => v.contains .null
         | _ => false)
  | .numericScalar n, value, _, _ =>
    .ok (match value with
         | some (.num input) => input == n
         | some (.arr v) => v.contains (.num n)
         | _ => false)
  | .booleanScalar b, value, _, _ =>
    .ok (match value with
         | some (.bool input) => input == b
         | some (.arr v) => v.contains (.bool b)
         | _ => false)
  | .stringScalar s, value, _, _ =>
    .ok (match value with
         | some (.str input) => input == s
         | some (.arr v) => v.contains (.str s)
         | _ => false)
  | .sequence seq, value, _, _ =>
    .ok (match value with
         | some (.arr v) => seq == v
         | some v => seq.contains v
         | none => false)
  | .compound compound, value, std_ops, custom_ops =>
    evalAsyncConditions compound value std_ops custom_ops
termination_by q _ _ _ => sizeOf q

/-- The `for cond in compound` loop of the async `Compound` arm. -/
def evalAsyncConditions :
    List AsyncCondition → Option Value → StdOpMap → AsyncCustomOpMap →
    Except QueryError Bool
  | [], _, _, _ => .ok true
  | cond :: rest, value, std_ops, custom_ops =>
    match AsyncCondition.evaluate cond value std_ops custom_ops with
    | .error e => .error e
    | .ok false => .ok false
    | .ok true => evalAsyncConditions rest value std_ops custom_ops
termination_by l _ _ _ => sizeOf l

/-- The async evaluator `AsyncCondition::evaluate`. -/
def AsyncCondition.evaluate :
    AsyncCondition → Option Value → StdOpMap → AsyncCustomOpMap →
    Except QueryError Bool
  | .and operators, value, std_ops, custom_ops =>
    evalAsyncAnd operators value std_ops custom_ops
  | .or operators, value, std_ops, custom_ops =>
    evalAsyncOr operators value std_ops custom_ops
  | .nor operators, value, std_ops, custom_ops =>
    evalAsyncNor operators value std_ops custom_ops
  | .not op, value, std_ops, custom_ops =>
    match AsyncQuery.evaluate_with_ops op value std_ops custom_ops with
    | .error e => .error e
    | .ok b => .ok (!b)
  | .field field_name op, value, std_ops, custom_ops =>
    AsyncQuery.evaluate_with_ops op (extract value (splitDot field_name))
      std_ops custom_ops
  | .operator operator condition, value, std_ops, custom_ops =>
    match custom_ops operator with
    | some custom_op => custom_op value condition
    | none =>
      match std_ops operator with
      | some std_op => std_op value condition
      | none => .error (.unsupportedOperator operator)
termination_by c _ _ _ => sizeOf c

/-- The async `And` loop. -/
def evalAsyncAnd :
    List AsyncQuery → Option Value → StdOpMap → AsyncCustomOpMap →
    Except QueryError Bool
  | [], _, _, _ => .ok true
  | op :: rest, value, std_ops, custom_ops =>
    match AsyncQuery.evaluate_with_ops op value std_ops custom_ops with
    | .error e => .error e
    | .ok false => .ok false
    | .ok true => evalAsyncAnd rest value std_ops custom_ops
termination_by l _ _ _ => sizeOf l

/-- The async `Or` loop. -/
def evalAsyncOr :
    List AsyncQuery → Option Value → StdOpMap → AsyncCustomOpMap →
    Except QueryError Bool
  | [], _, _, _ => .ok false
  | op :: rest, value, std_ops, custom_ops =>
    match AsyncQuery.evaluate_with_ops op value std_ops custom_ops with
    | .error e => .error e
    | .ok true => .ok true
    | .ok false => evalAsyncOr rest value std_ops custom_ops
termination_by l _ _ _ => sizeOf l

/-- The async `Nor` loop. -/
def evalAsyncNor :
    List AsyncQuery → Option Value → StdOpMap → AsyncCustomOpMap →
    Except QueryError Bool
  | [], _, _, _ => .ok true
  | op :: rest, value, std_ops, custom_ops =>
    match AsyncQuery.evaluate_with_ops op value std_ops custom_ops with
    | .error e => .error e
    | .ok true => .ok false
    | .ok false => evalAsyncNor rest value std_ops custom_ops
termination_by l _ _ _ => sizeOf l
end

/-! ## Lemmas about the field path resolver -/

/-- The broadcast loop is exactly an all-or-nothing traversal: it succeeds
with the list of per-element extractions precisely when every element
extraction succeeds. -/
theorem extractEach_eq_mapM (a : List Value) (path : List String) :
    extractEach a path = a.mapM (fun e => extract (some e) path) := by
  induction a with
  | nil =>
    rw [extractEach, List.mapM_nil]
    rfl
  | cons e rest ih =>
    rw [extractEach, List.mapM_cons, ← ih]
    cases hs : extractSome e path with
    | none => simp [extract, hs]
    | some r =>
      cases hr : extractEach rest path with
      | none => simp [extract, hs, hr]
      | some rs => simp [extract, hs, hr]

/-- C1: for an array input and a non-empty path whose first segment is
treated as a field name (it does not parse as an `i64` index), `extract`
recurses the full remaining path into each element independently, failing
the whole extraction if any element fails and otherwise collecting the
per-element results in order. -/
theorem extract_array_broadcast (a : List Value) (p : String) (ps : List String)
    (h : i64_from_str p = none) :
    extract (some (.arr a)) (p :: ps)
      = (a.mapM (fun e => extract (some e) (p :: ps))).map Value.arr := by
  rw [extract, extractSome, h, ← extractEach_eq_mapM]
  cases hx : extractEach a (p :: ps) <;> simp

/-- Witness for C1 at a concrete input: the segment `"m"` is not an index,
and broadcasting it over an array of two one-field objects extracts the
array of the two field values. -/
theorem extract_array_broadcast_witness :
    i64_from_str "m" = none ∧
      extract (some (.arr [.obj [("m", .num 1)], .obj [("m", .num 2)]])) ["m"]
        = (([Value.obj [("m", .num 1)], Value.obj [("m", .num 2)]].mapM
            (fun e => extract (some e) ["m"])).map Value.arr) :=
  ⟨rfl, extract_array_broadcast _ "m" [] rfl⟩

/-- C2 as stated is false: the segment `"-1"` does not parse as a
non-negative integer, yet `extract` does not broadcast it — the code
parses it as the `i64` value `-1`, casts it to a huge `usize`, and returns
`None` (index out of range), while broadcasting the path `["-1"]` over the
array `[null]` would return `Some([null])`. -/
theorem extract_negative_index_counterexample :
    extract (some (.arr [.null])) ["-1"] = none ∧
      (([Value.null].mapM (fun e => extract (some e) ["-1"])).map Value.arr)
        = some (.arr [.null]) := by
  constructor
  · have hp : i64_from_str "-1" = some (-1) := rfl
    have hg : [Value.null].get? (i64_as_usize (-1)) = none := by
      have hu : i64_as_usize (-1) = 2 ^ 64 - 1 := by decide
      rw [hu, List.get?_eq_none]
      norm_num
    rw [extract, extractSome]
    simp only [hp]
    split
    · rename_i e heq
      rw [hg] at heq
      exact Option.noConfusion heq
    · rfl
  · have h1 : extract (some Value.null) ["-1"] = some Value.null := by
      rw [extract, extractSome]
    rw [List.mapM_cons, List.mapM_nil]
    simp only [h1]
    rfl

/-- C2 amended: `extract` treats the first path segment of an array input
as a positional index exactly when it parses as a *signed* 64-bit integer
(`i64::from_str`); the parsed value is cast to `usize` modulo `2 ^ 64`, so
a negative segment indexes far out of range and the extraction yields
`None` instead of broadcasting.  Broadcast happens only when the segment
does not parse as an `i64` at all. -/
theorem extract_array_index_dispatch (a : List Value) (p : String)
    (ps : List String) :
    (∀ i : Int, i64_from_str p = some i →
        extract (some (.arr a)) (p :: ps) = extract (a.get? (i64_as_usize i)) ps) ∧
    (i64_from_str p = none →
        extract (some (.arr a)) (p :: ps)
          = (a.mapM (fun e => extract (some e) (p :: ps))).map Value.arr) := by
  constructor
  · intro i hi
    rw [extract, extractSome]
    simp only [hi]
    split
    · rename_i e heq
      rw [heq, extract]
    · rename_i heq
      rw [heq, extract]
  · intro h
    exact extract_array_broadcast a p ps h

/-- Witness for the amended C2 at the counterexample's input: `"-1"`
parses as the `i64` value `-1` and `extract` follows the positional
branch. -/
theorem extract_array_index_dispatch_witness :
    i64_from_str "-1" = some (-1) ∧
      extract (some (.arr [.null])) ["-1"]
        = extract ([Value.null].get? (i64_as_usize (-1))) [] :=
  ⟨rfl, (extract_array_index_dispatch [.null] "-1" []).1 (-1) rfl⟩

/-! ## Claims about the evaluator -/

/-- C3: for every candidate (present or absent) and every registry pair,
the empty combinators are vacuous: `Compound([])` and `And([])` evaluate
to `Ok(true)`, `Or([])` to `Ok(false)` and `Nor([])` to `Ok(true)`. -/
theorem empty_combinators_vacuous (value : Option Value) (std_ops : StdOpMap)
    (custom_ops : CustomOpMap) :
    Query.evaluate_with_ops (.compound []) value std_ops custom_ops = .ok true ∧
    Condition.evaluate (.and []) value std_ops custom_ops = .ok true ∧
    Condition.evaluate (.or []) value std_ops custom_ops = .ok false ∧
    Condition.evaluate (.nor []) value std_ops custom_ops = .ok true := by
  refine ⟨?_, ?_, ?_, ?_⟩
  · rw [Query.evaluate_with_ops, evalConditions]
  · rw [Condition.evaluate, evalAnd]
  · rw [Condition.evaluate, evalOr]
  · rw [Condition.evaluate, evalNor]

/-- C4: an `Operator` condition whose name is registered in neither the
custom map nor the standard map evaluates to
`Err(UnsupportedOperator(name))`, and a query containing it propagates
that same error — it is never `Ok(false)`. -/
theorem unknown_operator_errors (operator : String) (condition : Value)
    (value : Option Value) (std_ops : StdOpMap) (custom_ops : CustomOpMap)
    (hc : custom_ops operator = none) (hs : std_ops operator = none) :
    Condition.evaluate (.operator operator condition) value std_ops custom_ops
      = .error (.unsupportedOperator operator) ∧
    Query.evaluate_with_ops (.compound [.operator operator condition]) value
      std_ops custom_ops = .error (.unsupportedOperator operator) := by
  have h1 : Condition.evaluate (.operator operator condition) value std_ops
      custom_ops = .error (.unsupportedOperator operator) := by
    rw [Condition.evaluate]
    simp only [hc, hs]
  refine ⟨h1, ?_⟩
  rw [Query.evaluate_with_ops, evalConditions]
  simp only [h1]

/-- Witness for C4 at a concrete input: the operator name `"flarb"` is
in neither registry and evaluation surfaces the error. -/
theorem unknown_operator_errors_witness :
    Condition.evaluate (.operator "flarb" .null) none (fun _ => none)
      emptyCustomOps = .error (.unsupportedOperator "flarb") :=
  (unknown_operator_errors "flarb" .null none (fun _ => none) emptyCustomOps
    rfl rfl).1

/-- C6: when an operator name is registered in the custom map, the custom
operator is invoked and its result is the condition's result (whatever the
standard map holds); the standard map is consulted only when no custom
operator of that name exists. -/
theorem custom_operator_precedence (operator : String) (condition : Value)
    (value : Option Value) (std_ops : StdOpMap) (custom_ops : CustomOpMap) :
    (∀ f : CustomOperator, custom_ops operator = some f →
        Condition.evaluate (.operator operator condition) value std_ops custom_ops
          = f value condition) ∧
    (∀ g : StandardOperator, custom_ops operator = none → std_ops operator = some g →
        Condition.evaluate (.operator operator condition) value std_ops custom_ops
          = g value condition) := by
  constructor
  · intro f hf
    rw [Condition.evaluate]
    simp only [hf]
  · intro g hn hg
    rw [Condition.evaluate]
    simp only [hn, hg]

/-- Witness for C6 at a concrete input: the name `"myop"` is registered in
both maps; the custom operator (returning `Ok(true)`) wins over the
standard one (returning `Ok(false)`). -/
theorem custom_operator_precedence_witness :
    Condition.evaluate (.operator "myop" .null) none
      (fun s => if s = "myop" then some (fun _ _ => .ok false) else none)
      (fun s => if s = "myop" then some (fun _ _ => .ok true) else none)
      = .ok true :=
  (custom_operator_precedence "myop" .null none
      (fun s => if s = "myop" then some (fun _ _ => .ok false) else none)
      (fun s => if s = "myop" then some (fun _ _ => .ok true) else none)).1
    (fun _ _ => .ok true) (by simp)

/-- C7: the partial-order comparator compares two arrays by length only,
returning the ordering of the lengths whatever the elements are. -/
theorem array_compare_by_length (l r : List Value) :
    value_partial_cmp (.arr l) (.arr r) = some (compare l.length r.length) := by
  rw [value_partial_cmp]

/-- C8: evaluating `Not{T}` returns `Ok` of the negation of what
evaluating `T` returns, whenever `T` evaluates without error (in
particular whenever `T` contains no operator that can error). -/
theorem not_negates (T : Query) (value : Option Value) (std_ops : StdOpMap)
    (custom_ops : CustomOpMap) (b : Bool)
    (h : Query.evaluate_with_ops T value std_ops custom_ops = .ok b) :
    Condition.evaluate (.not T) value std_ops custom_ops = .ok (!b) := by
  rw [Condition.evaluate]
  simp only [h]

/-- Witness for C8 at a concrete input: `NullScalar` on an absent
candidate evaluates to `Ok(false)`, so its negation evaluates to
`Ok(true)`. -/
theorem not_negates_witness :
    Condition.evaluate (.not .nullScalar) none (fun _ => none) emptyCustomOps
      = .ok true :=
  not_negates .nullScalar none (fun _ => none) emptyCustomOps false
    (by simp [Query.evaluate_with_ops])

/-- C9: compilation is total and deterministic — every JSON value compiles
to exactly one `Query` node, `from_map` produces exactly one condition per
object key, and malformed combinator arguments (a non-array value under
`$and`/`$or`/`$nor`) degenerate to the empty sub-query list instead of
failing. -/
theorem compilation_total :
    (∀ v : Value, ∃! q : Query, Query.from_value v = q) ∧
    (∀ entries : List (String × Value),
        (Condition.from_map entries).length = entries.length) ∧
    (∀ v : Value, (∀ a : List Value, v ≠ Value.arr a) →
        compound_condition_from_value v = []) := by
  refine ⟨fun v => ⟨Query.from_value v, rfl, fun q hq => hq.symm⟩, ?_, ?_⟩
  · intro entries
    induction entries with
    | nil =>
      rw [Condition.from_map]
      rfl
    | cons e rest ih =>
      obtain ⟨k, c⟩ := e
      rw [Condition.from_map]
      simp [ih]
  · intro v hv
    cases v with
    | arr a => exact absurd rfl (hv a)
    | null => simp [compound_condition_from_value]
    | bool b => simp [compound_condition_from_value]
    | num n => simp [compound_condition_from_value]
    | str s => simp [compound_condition_from_value]
    | obj o => simp [compound_condition_from_value]

/-- Witness for C9 at a concrete input: a null combinator argument
compiles to the empty sub-query list. -/
theorem compilation_total_witness : compound_condition_from_value Value.null = [] :=
  compilation_total.2.2 Value.null (fun a h => Value.noConfusion h)

/-- C10: every scalar query node and every `Sequence` node evaluates to
`Ok(false)` against an absent candidate; `NullScalar` does match a present
`Null`; and the compiled query `{field: null}` does not match a document
in which the field path resolves to nothing. -/
theorem absent_candidate_never_matches (n : Int) (b : Bool) (s : String)
    (seq : List Value) (std_ops : StdOpMap) (custom_ops : CustomOpMap) :
    Query.evaluate_with_ops .nullScalar none std_ops custom_ops = .ok false ∧
    Query.evaluate_with_ops (.numericScalar n) none std_ops custom_ops = .ok false ∧
    Query.evaluate_with_ops (.booleanScalar b) none std_ops custom_ops = .ok false ∧
    Query.evaluate_with_ops (.stringScalar s) none std_ops custom_ops = .ok false ∧
    Query.evaluate_with_ops (.sequence seq) none std_ops custom_ops = .ok false ∧
    Query.evaluate_with_ops .nullScalar (some .null) std_ops custom_ops = .ok true ∧
    (∀ (f : String) (doc : Value), stripDollar f = none →
        extract (some doc) (splitDot f) = none →
        Query.evaluate_with_ops (Query.from_value (.obj [(f, .null)])) (some doc)
          std_ops custom_ops = .ok false) := by
  refine ⟨by simp [Query.evaluate_with_ops], by simp [Query.evaluate_with_ops],
    by simp [Query.evaluate_with_ops], by simp [Query.evaluate_with_ops],
    by simp [Query.evaluate_with_ops], by simp [Query.evaluate_with_ops], ?_⟩
  intro f doc hf hx
  have h1 : f ≠ "$and" := by
    rintro rfl
    exact absurd hf (by decide)
  have h2 : f ≠ "$or" := by
    rintro rfl
    exact absurd hf (by decide)
  have h3 : f ≠ "$nor" := by
    rintro rfl
    exact absurd hf (by decide)
  have h4 : f ≠ "$not" := by
    rintro rfl
    exact absurd hf (by decide)
  have hc : Condition.evaluate (.field f (Query.from_value .null)) (some doc)
      std_ops custom_ops = .ok false := by
    rw [Condition.evaluate, hx, Query.from_value]
    simp [Query.evaluate_with_ops]
  rw [Query.from_value, Condition.from_map, Condition.from_map]
  simp only [if_neg h1, if_neg h2, if_neg h3, if_neg h4, hf]
  rw [Query.evaluate_with_ops, evalConditions]
  simp only [hc]

/-- Witness for C10 at a concrete input: the compiled `{"a": null}` does
not match the empty object, on which the path `"a"` resolves to nothing. -/
theorem absent_candidate_never_matches_witness :
    stripDollar "a" = none ∧
      extract (some (.obj [])) (splitDot "a") = none ∧
      Query.evaluate_with_ops (Query.from_value (.obj [("a", .null)]))
        (some (.obj [])) (fun _ => none) emptyCustomOps = .ok false := by
  have hs : splitDot "a" = ["a"] := by decide
  have hx : extract (some (.obj [])) (splitDot "a") = none := by
    rw [hs]
    simp [extract, extractSome, lookupField]
  exact ⟨rfl, hx,
    (absent_candidate_never_matches 0 false "" [] (fun _ => none)
        emptyCustomOps).2.2.2.2.2.2 "a" (.obj []) rfl hx⟩

/-! ## Equivalence of the async and synchronous evaluators -/

mutual
/-- Evaluating the async-compiled tree of a document equals evaluating the
synchronously compiled tree, for every candidate and standard registry,
with empty custom maps. -/
theorem async_query_eq (doc : Value) (value : Option Value) (std_ops : StdOpMap) :
    AsyncQuery.evaluate_with_ops (AsyncQuery.from_value doc) value std_ops
        emptyAsyncCustomOps
      = Query.evaluate_with_ops (Query.from_value doc) value std_ops
        emptyCustomOps := by
  cases doc with
  | null =>
    cases value with
    | none =>
      simp [AsyncQuery.from_value, Query.from_value, AsyncQuery.evaluate_with_ops,
        Query.evaluate_with_ops]
    | some v =>
      cases v <;>
        simp [AsyncQuery.from_value, Query.from_value, AsyncQuery.evaluate_with_ops,
          Query.evaluate_with_ops]
  | bool b =>
    cases value with
    | none =>
      simp [AsyncQuery.from_value, Query.from_value, AsyncQuery.evaluate_with_ops,
        Query.evaluate_with_ops]
    | some v =>
      cases v <;>
        simp [AsyncQuery.from_value, Query.from_value, AsyncQuery.evaluate_with_ops,
          Query.evaluate_with_ops]
  | num n =>
    cases value with
    | none =>
      simp [AsyncQuery.from_value, Query.from_value, AsyncQuery.evaluate_with_ops,
        Query.evaluate_with_ops]
    | some v =>
      cases v <;>
        simp [AsyncQuery.from_value, Query.from_value, AsyncQuery.evaluate_with_ops,
          Query.evaluate_with_ops]
  | str s =>
    cases value with
    | none =>
      simp [AsyncQuery.from_value, Query.from_value, AsyncQuery.evaluate_with_ops,
        Query.evaluate_with_ops]
    | some v =>
      cases v <;>
        simp [AsyncQuery.from_value, Query.from_value, AsyncQuery.evaluate_with_ops,
          Query.evaluate_with_ops]
  | arr a =>
    cases value with
    | none =>
      simp [AsyncQuery.from_value, Query.from_value, AsyncQuery.evaluate_with_ops,
        Query.evaluate_with_ops]
    | some v =>
      cases v <;>
        simp [AsyncQuery.from_value, Query.from_value, AsyncQuery.evaluate_with_ops,
          Query.evaluate_with_ops]
  | obj o =>
    rw [AsyncQuery.from_value, Query.from_value, AsyncQuery.evaluate_with_ops,
      Query.evaluate_with_ops]
    exact async_conds_eq o value std_ops
termination_by sizeOf doc

/-- The condition loops of the two evaluators agree on the trees compiled
from the same object entries. -/
theorem async_conds_eq (entries : List (String × Value)) (value : Option Value)
    (std_ops : StdOpMap) :
    evalAsyncConditions (AsyncCondition.from_map entries) value std_ops
        emptyAsyncCustomOps
      = evalConditions (Condition.from_map entries) value std_ops
        emptyCustomOps := by
  cases entries with
  | nil =>
    rw [AsyncCondition.from_map, Condition.from_map, evalAsyncConditions,
      evalConditions]
  | cons e rest =>
    obtain ⟨k, c⟩ := e
    rw [AsyncCondition.from_map, Condition.from_map]
    by_cases h1 : k = "$and"
    · simp only [if_pos h1]
      rw [evalAsyncConditions, evalConditions, AsyncCondition.evaluate,
        Condition.evaluate, async_ccfv_and_eq c value std_ops]
      cases hres : evalAnd (compound_condition_from_value c) value std_ops
          emptyCustomOps with
      | error e2 => rfl
      | ok b2 =>
        cases b2 with
        | false => rfl
        | true => exact async_conds_eq rest value std_ops
    · by_cases h2 : k = "$or"
      · simp only [if_neg h1, if_pos h2]
        rw [evalAsyncConditions, evalConditions, AsyncCondition.evaluate,
          Condition.evaluate, async_ccfv_or_eq c value std_ops]
        cases hres : evalOr (compound_condition_from_value c) value std_ops
            emptyCustomOps with
        | error e2 => rfl
        | ok b2 =>
          cases b2 with
          | false => rfl
          | true => exact async_conds_eq rest value std_ops
      · by_cases h3 : k = "$nor"
        · simp only [if_neg h1, if_neg h2, if_pos h3]
          rw [evalAsyncConditions, evalConditions, AsyncCondition.evaluate,
            Condition.evaluate, async_ccfv_nor_eq c value std_ops]
          cases hres : evalNor (compound_condition_from_value c) value std_ops
              emptyCustomOps with
          | error e2 => rfl
          | ok b2 =>
            cases b2 with
            | false => rfl
            | true => exact async_conds_eq rest value std_ops
        · by_cases h4 : k = "$not"
          · simp only [if_neg h1, if_neg h2, if_neg h3, if_pos h4]
            rw [evalAsyncConditions, evalConditions, AsyncCondition.evaluate,
              Condition.evaluate, async_query_eq c value std_ops]
            cases hres : Query.evaluate_with_ops (Query.from_value c) value
                std_ops emptyCustomOps with
            | error e2 => rfl
            | ok b2 =>
              cases b2 with
              | true => rfl
              | false => exact async_conds_eq rest value std_ops
          · cases hd : stripDollar k with
            | some stripped =>
              simp only [if_neg h1, if_neg h2, if_neg h3, if_neg h4, hd]
              rw [evalAsyncConditions, evalConditions, AsyncCondition.evaluate,
                Condition.evaluate]
              simp only [emptyAsyncCustomOps, emptyCustomOps]
              cases hs : std_ops stripped with
              | none => rfl
              | some g =>
                show (match g value c with
                  | Except.error e => Except.error e
                  | Except.ok false => Except.ok false
                  | Except.ok true =>
                      evalAsyncConditions (AsyncCondition.from_map rest) value
                        std_ops emptyAsyncCustomOps)
                  = (match g value c with
                  | Except.error e => Except.error e
                  | Except.ok false => Except.ok false
                  | Except.ok true =>
                      evalConditions (Condition.from_map rest) value std_ops
                        emptyCustomOps)
                cases hres : g value c with
                | error e2 => rfl
                | ok b2 =>
                  cases b2 with
                  | false => rfl
                  | true => exact async_conds_eq rest value std_ops
            | none =>
              simp only [if_neg h1, if_neg h2, if_neg h3, if_neg h4, hd]
              rw [evalAsyncConditions, evalConditions, AsyncCondition.evaluate,
                Condition.evaluate,
                async_query_eq c (extract value (splitDot k)) std_ops]
              cases hres : Query.evaluate_with_ops (Query.from_value c)
                  (extract value (splitDot k)) std_ops emptyCustomOps with
              | error e2 => rfl
              | ok b2 =>
                cases b2 with
                | false => rfl
                | true => exact async_conds_eq rest value std_ops
termination_by sizeOf entries

/-- The `And` loops agree on the sub-query lists compiled from the same
combinator argument. -/
theorem async_ccfv_and_eq (c : Value) (value : Option Value) (std_ops : StdOpMap) :
    evalAsyncAnd (async_compound_condition_from_value c) value std_ops
        emptyAsyncCustomOps
      = evalAnd (compound_condition_from_value c) value std_ops emptyCustomOps := by
  cases c with
  | arr vec =>
    rw [async_compound_condition_from_value, compound_condition_from_value]
    exact async_and_eq vec value std_ops
  | null =>
    simp [async_compound_condition_from_value, compound_condition_from_value,
      evalAsyncAnd, evalAnd]
  | bool b =>
    simp [async_compound_condition_from_value, compound_condition_from_value,
      evalAsyncAnd, evalAnd]
  | num n =>
    simp [async_compound_condition_from_value, compound_condition_from_value,
      evalAsyncAnd, evalAnd]
  | str s =>
    simp [async_compound_condition_from_value, compound_condition_from_value,
      evalAsyncAnd, evalAnd]
  | obj o =>
    simp [async_compound_condition_from_value, compound_condition_from_value,
      evalAsyncAnd, evalAnd]
termination_by sizeOf c

/-- The `Or` loops agree on the sub-query lists compiled from the same
combinator argument. -/
theorem async_ccfv_or_eq (c : Value) (value : Option Value) (std_ops : StdOpMap) :
    evalAsyncOr (async_compound_condition_from_value c) value std_ops
        emptyAsyncCustomOps
      = evalOr (compound_condition_from_value c) value std_ops emptyCustomOps := by
  cases c with
  | arr vec =>
    rw [async_compound_condition_from_value, compound_condition_from_value]
    exact async_or_eq vec value std_ops
  | null =>
    simp [async_compound_condition_from_value, compound_condition_from_value,
      evalAsyncOr, evalOr]
  | bool b =>
    simp [async_compound_condition_from_value, compound_condition_from_value,
      evalAsyncOr, evalOr]
  | num n =>
    simp [async_compound_condition_from_value, compound_condition_from_value,
      evalAsyncOr, evalOr]
  | str s =>
    simp [async_compound_condition_from_value, compound_condition_from_value,
      evalAsyncOr, evalOr]
  | obj o =>
    simp [async_compound_condition_from_value, compound_condition_from_value,
      evalAsyncOr, evalOr]
termination_by sizeOf c

/-- The `Nor` loops agree on the sub-query lists compiled from the same
combinator argument. -/
theorem async_ccfv_nor_eq (c : Value) (value : Option Value) (std_ops : StdOpMap) :
    evalAsyncNor (async_compound_condition_from_value c) value std_ops
        emptyAsyncCustomOps
      = evalNor (compound_condition_from_value c) value std_ops emptyCustomOps := by
  cases c with
  | arr vec =>
    rw [async_compound_condition_from_value, compound_condition_from_value]
    exact async_nor_eq vec value std_ops
  | null =>
    simp [async_compound_condition_from_value, compound_condition_from_value,
      evalAsyncNor, evalNor]
  | bool b =>
    simp [async_compound_condition_from_value, compound_condition_from_value,
      evalAsyncNor, evalNor]
  | num n =>
    simp [async_compound_condition_from_value, compound_condition_from_value,
      evalAsyncNor, evalNor]
  | str s =>
    simp [async_compound_condition_from_value, compound_condition_from_value,
      evalAsyncNor, evalNor]
  | obj o =>
    simp [async_compound_condition_from_value, compound_condition_from_value,
      evalAsyncNor, evalNor]
termination_by sizeOf c

/-- The `And` loops agree element-wise on lists of recursively compiled
sub-queries. -/
theorem async_and_eq (l : List Value) (value : Option Value) (std_ops : StdOpMap) :
    evalAsyncAnd (async_queries_from_values l) value std_ops emptyAsyncCustomOps
      = evalAnd (queries_from_values l) value std_ops emptyCustomOps := by
  cases l with
  | nil => rw [async_queries_from_values, queries_from_values, evalAsyncAnd, evalAnd]
  | cons x rest =>
    rw [async_queries_from_values, queries_from_values, evalAsyncAnd, evalAnd,
      async_query_eq x value std_ops]
    cases hres : Query.evaluate_with_ops (Query.from_value x) value std_ops
        emptyCustomOps with
    | error e => rfl
    | ok b =>
      cases b with
      | false => rfl
      | true => exact async_and_eq rest value std_ops
termination_by sizeOf l

/-- The `Or` loops agree element-wise on lists of recursively compiled
sub-queries. -/
theorem async_or_eq (l : List Value) (value : Option Value) (std_ops : StdOpMap) :
    evalAsyncOr (async_queries_from_values l) value std_ops emptyAsyncCustomOps
      = evalOr (queries_from_values l) value std_ops emptyCustomOps := by
  cases l with
  | nil => rw [async_queries_from_values, queries_from_values, evalAsyncOr, evalOr]
  | cons x rest =>
    rw [async_queries_from_values, queries_from_values, evalAsyncOr, evalOr,
      async_query_eq x value std_ops]
    cases hres : Query.evaluate_with_ops (Query.from_value x) value std_ops
        emptyCustomOps with
    | error e => rfl
    | ok b =>
      cases b with
      | true => rfl
      | false => exact async_or_eq rest value std_ops
termination_by sizeOf l

/-- The `Nor` loops agree element-wise on lists of recursively compiled
sub-queries. -/
theorem async_nor_eq (l : List Value) (value : Option Value) (std_ops : StdOpMap) :
    evalAsyncNor (async_queries_from_values l) value std_ops emptyAsyncCustomOps
      = evalNor (queries_from_values l) value std_ops emptyCustomOps := by
  cases l with
  | nil => rw [async_queries_from_values, queries_from_values, evalAsyncNor, evalNor]
  | cons x rest =>
    rw [async_queries_from_values, queries_from_values, evalAsyncNor, evalNor,
      async_query_eq x value std_ops]
    cases hres : Query.evaluate_with_ops (Query.from_value x) value std_ops
        emptyCustomOps with
    | error e => rfl
    | ok b =>
      cases b with
      | true => rfl
      | false => exact async_nor_eq rest value std_ops
termination_by sizeOf l
end

/-- C5: for every query document, candidate (present or absent) and
standard-operator registry, evaluating the async-compiled tree with an
empty custom-operator map yields exactly the same result (boolean or
error) as evaluating the synchronously compiled tree of the same document
with an empty custom-operator map. -/
theorem async_sync_equivalent (doc : Value) (value : Option Value)
    (std_ops : StdOpMap) :
    AsyncQuery.evaluate_with_ops (AsyncQuery.from_value doc) value std_ops
        emptyAsyncCustomOps
      = Query.evaluate_with_ops (Query.from_value doc) value std_ops
        emptyCustomOps :=
  async_query_eq doc value std_ops
